import Mathlib

/-!
# Verification of the restaurant voice-bot dialog controller

Shallow embedding of `src/app.js` (jambonz WebSocket restaurant bot,
TTS-streaming variant).  Pure string helpers (`toLowerCase`, `includes`,
`trim`) are modelled over `List Char`; the `conversations` JS `Map` is an
association list with `Map` semantics (insertion order, in-place update,
filtering delete); the OpenAI completion call is an oracle parameter
(`ProviderResult`), since the network is external; each event handler is a
state transformer that also emits the observable session commands it issued
(`Action`).  The single `await` suspension point inside the speech handler
(the model call) is made explicit by splitting `getAIResponse` into
`getAIStart` (synchronous part before the await) and `getAIFinish`
(continuation after the provider answers).
-/

set_option maxRecDepth 4000

namespace RestaurantBot

/-! ## JS string primitives -/

/-- One code point of `String.prototype.toLowerCase`, restricted to the
ranges relevant to this program: ASCII `A`–`Z`, Cyrillic `А`–`Я`
(U+0410–U+042F) and `Ё` (U+0401).  All other characters are fixed. -/
def charLower (c : Char) : Char :=
  if 0x41 ≤ c.toNat ∧ c.toNat ≤ 0x5A then Char.ofNat (c.toNat + 0x20)
  else if 0x410 ≤ c.toNat ∧ c.toNat ≤ 0x42F then Char.ofNat (c.toNat + 0x20)
  else if c.toNat = 0x401 then Char.ofNat 0x451
  else c

/-- `String.prototype.toLowerCase` on the code points this program uses. -/
def jsToLower (s : String) : String :=
  ⟨s.data.map charLower⟩

/-- `matchesAt sub s`: `sub` is a leading segment of `s`. -/
def matchesAt : List Char → List Char → Bool
  | [], _ => true
  | _ :: _, [] => false
  | a :: as, b :: bs => a == b && matchesAt as bs

/-- `hasSubstr s sub`: `sub` occurs contiguously somewhere in `s`. -/
def hasSubstr : List Char → List Char → Bool
  | [], sub => matchesAt sub []
  | c :: t, sub => matchesAt sub (c :: t) || hasSubstr t sub

/-- `String.prototype.includes`: substring containment. -/
def includes (s sub : String) : Bool :=
  hasSubstr s.data sub.data

/-- `String.prototype.trim` (whitespace here: space, tab, CR, LF — the
code points that can occur in this program's transcripts). -/
def jsTrim (s : String) : String :=
  ⟨((s.data.dropWhile Char.isWhitespace).reverse.dropWhile Char.isWhitespace).reverse⟩

/-! ## Fixed texts of `src/app.js` -/

/-- The system prompt seeded as the first history turn (`SYSTEM_PROMPT`). -/
def SYSTEM_PROMPT : String :=
  "Ты - приветливый сотрудник ресторана \"Золотой Дракон\". Ты звонишь клиенту, чтобы предложить забронировать столик.\n\nТебя зовут Анна.\n\nТвоя задача:\n1. Поприветствовать клиента и представиться как Анна\n2. Предложить забронировать столик в ресторане\n3. Если клиент согласен - узнать: дату, время, количество гостей и имя для брони\n4. Если клиент отказывается - вежливо попрощаться\n\nПравила общения:\n- Говори кратко и по делу (1-2 предложения)\n- Будь вежливым и дружелюбным\n- Не используй эмодзи и спецсимволы\n- Отвечай только на русском языке\n- Если клиент подтвердил бронь, повтори все детали и поблагодари\n\nИнформация о ресторане:\n- Работаем ежедневно с 12:00 до 23:00\n- Есть банкетный зал до 30 человек\n- Кухня: паназиатская\n- Адрес: ул. Пушкина, д. 10"

/-- `END_PHRASES` from `src/app.js`. -/
def END_PHRASES : List String :=
  ["до свидания", "пока", "всего доброго", "нет спасибо", "не интересует", "не надо"]

/-- The fixed technical-difficulty fallback returned on provider failure. -/
def FALLBACK : String :=
  "Извините, произошла техническая ошибка. Перезвоните позже."

/-- The closing utterance spoken on an end phrase. -/
def CLOSING : String :=
  "Спасибо за ваше время! Хорошего дня, до свидания!"

/-! ## Dialog policy (`isBookingConfirmed`, `isEndPhrase`) -/

/-- `isBookingConfirmed` from `src/app.js`. -/
def isBookingConfirmed (text : String) : Bool :=
  let lower := jsToLower text
  includes lower "забронирован" || includes lower "ждём вас" ||
    includes lower "бронь подтверждена"

/-- `isEndPhrase` from `src/app.js`. -/
def isEndPhrase (text : String) : Bool :=
  let lower := jsToLower text
  END_PHRASES.any (fun phrase => includes lower phrase)

/-! ## Conversation store (the `conversations` JS `Map`) -/

/-- One turn of a conversation history. -/
inductive Role where
  | system
  | user
  | assistant
deriving DecidableEq, Repr

/-- A history entry: `{ role, content }`. -/
structure Message where
  role : Role
  content : String
deriving DecidableEq, Repr

abbrev History := List Message

/-- The `conversations` map: association list in insertion order with
unique keys, mirroring JS `Map` semantics. -/
abbrev Conversations := List (String × History)

/-- `Map.prototype.get`. -/
def convGet : Conversations → String → Option History
  | [], _ => none
  | (k, v) :: rest, key => if k = key then some v else convGet rest key

/-- `Map.prototype.has`. -/
def convHas (m : Conversations) (k : String) : Bool :=
  (convGet m k).isSome

/-- `Map.prototype.set`: update in place if the key exists, else append. -/
def convSet : Conversations → String → History → Conversations
  | [], key, v => [(key, v)]
  | (k, w) :: rest, key, v =>
    if k = key then (key, v) :: rest else (k, w) :: convSet rest key v

/-- `Map.prototype.delete` (the return value is unused by the program). -/
def convDelete : Conversations → String → Conversations
  | [], _ => []
  | (k, w) :: rest, key =>
    if k = key then convDelete rest key else (k, w) :: convDelete rest key

/-! ## Response generator (`getAIResponse`) -/

/-- Outcome of the external OpenAI completion call: either a reply text, or
any failure caught by the `try`/`catch` (network error, non-2xx, malformed
response, timeout). -/
inductive ProviderResult where
  | ok (content : String)
  | failure
deriving DecidableEq, Repr

/-- Result of `getAIResponse`: the updated store, the message list that was
passed to the completion call (the request), and the returned text. -/
structure AIResult where
  conv : Conversations
  request : History
  response : String
deriving DecidableEq, Repr

/-- The synchronous part of `getAIResponse` before the `await`: lazily seed
the history with the system turn, push the user turn (JS truthiness: only
when `userMessage` is non-empty), and return the message list handed to the
completion call.  Because the JS array is aliased by the map entry, the
pushes are visible in the store immediately. -/
def getAIStart (conv : Conversations) (callSid : String) (userMessage : String) :
    Conversations × History :=
  let conv1 :=
    if convHas conv callSid then conv
    else convSet conv callSid [⟨Role.system, SYSTEM_PROMPT⟩]
  let messages := (convGet conv1 callSid).getD []
  let messages1 :=
    if userMessage = "" then messages else messages ++ [⟨Role.user, userMessage⟩]
  (convSet conv1 callSid messages1, messages1)

/-- The continuation of `getAIResponse` after the provider answers: on
success push the assistant turn and return it; on failure return the fixed
fallback without touching the store. -/
def getAIFinish (conv : Conversations) (callSid : String) (request : History)
    (provider : ProviderResult) : Conversations × String :=
  match provider with
  | ProviderResult.ok content =>
    (convSet conv callSid (request ++ [⟨Role.assistant, content⟩]), content)
  | ProviderResult.failure => (conv, FALLBACK)

/-- `getAIResponse` from `src/app.js`, as the sequential composition of the
pre-await and post-await parts.  Total: every JS exception from the provider
is caught inside the function. -/
def getAIResponse (conv : Conversations) (callSid : String) (userMessage : String)
    (provider : ProviderResult) : AIResult :=
  let s := getAIStart conv callSid userMessage
  let f := getAIFinish s.1 callSid s.2 provider
  ⟨f.1, s.2, f.2⟩

/-! ## Recognition event payload and the speech handler -/

/-- One element of `evt.speech.alternatives`. -/
structure SpeechAlt where
  transcript : Option String
deriving DecidableEq, Repr

/-- The optional `evt.speech` object. -/
structure SpeechPayload where
  alternatives : Option (List SpeechAlt)
deriving DecidableEq, Repr

/-- A `/speech-detected` event payload; every field on the chain
`evt.speech?.alternatives?.[0]?.transcript` may be missing. -/
structure SpeechEvent where
  speech : Option SpeechPayload
deriving DecidableEq, Repr

/-- The optional-chained, truthiness-guarded transcript extraction
`let transcript = ''; if (evt.speech?.alternatives?.[0]?.transcript) ...`. -/
def extractTranscript (evt : SpeechEvent) : String :=
  match evt.speech with
  | none => ""
  | some sp =>
    match sp.alternatives with
    | none => ""
    | some alts =>
      match alts.head? with
      | none => ""
      | some alt =>
        match alt.transcript with
        | none => ""
        | some t => if t = "" then "" else t

/-- A well-formed recognition event carrying transcript `t`. -/
def evtOf (t : String) : SpeechEvent :=
  ⟨some ⟨some [⟨some t⟩]⟩⟩

/-- Observable session commands issued by the handlers. -/
inductive Action where
  | reply
  | sayStream (text : String)
  | modelCall (request : History)
  | hangupAfter (ms : Nat)
deriving DecidableEq, Repr

/-- The `/speech-detected` handler run to completion (sequential semantics:
the provider oracle answers at the single await).  Returns the updated store
and the commands issued, in order. -/
def handleSpeech (conv : Conversations) (callSid : String) (evt : SpeechEvent)
    (provider : ProviderResult) : Conversations × List Action :=
  let transcript := extractTranscript evt
  if jsTrim transcript = "" then
    (conv, [Action.reply])
  else if isEndPhrase transcript then
    (convDelete conv callSid,
     [Action.reply, Action.sayStream CLOSING, Action.hangupAfter 3000])
  else
    let r := getAIResponse conv callSid transcript provider
    if isBookingConfirmed r.response then
      (convDelete r.conv callSid,
       [Action.reply, Action.modelCall r.request,
        Action.sayStream (r.response ++ " До свидания!"), Action.hangupAfter 5000])
    else
      (r.conv, [Action.reply, Action.modelCall r.request, Action.sayStream r.response])

/-- A sequence of fully processed speech turns for one call. -/
def runSpeech : Conversations → String → List (SpeechEvent × ProviderResult) → Conversations
  | conv, _, [] => conv
  | conv, sid, (e, p) :: rest => runSpeech (handleSpeech conv sid e p).1 sid rest

/-- What the speech handler has decided by the time it reaches its `await`
on the completion call. -/
inductive Phase1Outcome where
  | ignored
  | endedByPhrase
  | modelCallStarted (request : History)
deriving DecidableEq, Repr

/-- The synchronous segment of the `/speech-detected` handler, up to (and
including) starting the model call: this is everything that runs before the
handler suspends, so it is exactly what a second event for the same call can
observe while the first model call is still pending.  Note that no field of
the state records a pending call: the code has no `Processing` guard. -/
def speechPhase1 (conv : Conversations) (callSid : String) (evt : SpeechEvent) :
    Conversations × Phase1Outcome :=
  let transcript := extractTranscript evt
  if jsTrim transcript = "" then
    (conv, Phase1Outcome.ignored)
  else if isEndPhrase transcript then
    (convDelete conv callSid, Phase1Outcome.endedByPhrase)
  else
    let s := getAIStart conv callSid transcript
    (s.1, Phase1Outcome.modelCallStarted s.2)

/-! ## Lifecycle handlers -/

/-- The `call:status` handler: delete the history on a terminal status. -/
def handleCallStatus (conv : Conversations) (callSid : String) (status : String) :
    Conversations :=
  if status = "completed" ∨ status = "failed" then convDelete conv callSid else conv

/-- The `close` handler: delete the history unconditionally. -/
def handleClose (conv : Conversations) (callSid : String) : Conversations :=
  convDelete conv callSid

/-! ## History shape predicates -/

/-- Expected next role flips between `user` and `assistant`. -/
def flipRole : Role → Role
  | Role.user => Role.assistant
  | Role.assistant => Role.user
  | Role.system => Role.system

/-- `altState r roles` consumes `roles` checking strict alternation starting
at expected role `r`; returns the next expected role, or `none` on a
violation. -/
def altState : Role → List Role → Option Role
  | r, [] => some r
  | r, x :: xs => if x = r then altState (flipRole r) xs else none

/-- Exactly one system turn, placed first. -/
def systemFirst (h : History) : Bool :=
  match h with
  | [] => false
  | m :: rest => m.role == Role.system && rest.all (fun x => x.role != Role.system)

/-- The claim's history invariant: a leading system turn followed by
strictly alternating user/assistant turns (starting with user). -/
def wfHistory (h : History) : Bool :=
  match h with
  | [] => false
  | m :: rest =>
    m.role == Role.system && (altState Role.user (rest.map Message.role)).isSome

/-- Strengthened invariant preserved by successful turns: the alternation is
complete, i.e. the next expected role is `user` again. -/
def readyHistory (h : History) : Bool :=
  match h with
  | [] => false
  | m :: rest =>
    m.role == Role.system && (altState Role.user (rest.map Message.role) == some Role.user)

/-- The history a model call starts from: the stored one, or the freshly
seeded system turn, with the user turn appended when non-empty. -/
def seedHist (conv : Conversations) (callSid : String) : History :=
  (convGet conv callSid).getD [⟨Role.system, SYSTEM_PROMPT⟩]

/-! ## Store lemmas -/

lemma convGet_set_self (m : Conversations) (k : String) (v : History) :
    convGet (convSet m k v) k = some v := by
  induction m with
  | nil => simp [convSet, convGet]
  | cons p rest ih =>
    rcases p with ⟨k', w⟩
    by_cases h : k' = k <;> simp [convSet, convGet, h, ih]

lemma convGet_set_other (m : Conversations) (k q : String) (v : History)
    (h : q ≠ k) : convGet (convSet m k v) q = convGet m q := by
  induction m with
  | nil => simp [convSet, convGet, Ne.symm h]
  | cons p rest ih =>
    rcases p with ⟨k', w⟩
    by_cases hk : k' = k
    · subst hk
      simp [convSet, convGet, Ne.symm h]
    · simp [convSet, convGet, hk, ih]

lemma convSet_set (m : Conversations) (k : String) (v w : History) :
    convSet (convSet m k v) k w = convSet m k w := by
  induction m with
  | nil => simp [convSet]
  | cons p rest ih =>
    rcases p with ⟨k', x⟩
    by_cases h : k' = k <;> simp [convSet, h, ih]

lemma convGet_delete_self (m : Conversations) (k : String) :
    convGet (convDelete m k) k = none := by
  induction m with
  | nil => simp [convDelete, convGet]
  | cons p rest ih =>
    rcases p with ⟨k', w⟩
    by_cases h : k' = k <;> simp [convDelete, convGet, h, ih]

lemma convGet_delete_other (m : Conversations) (k q : String) (h : q ≠ k) :
    convGet (convDelete m k) q = convGet m q := by
  induction m with
  | nil => simp [convDelete]
  | cons p rest ih =>
    rcases p with ⟨k', w⟩
    by_cases hk : k' = k
    · subst hk
      simp [convDelete, convGet, Ne.symm h, ih]
    · simp [convDelete, convGet, hk, ih]

lemma convDelete_delete (m : Conversations) (k : String) :
    convDelete (convDelete m k) k = convDelete m k := by
  induction m with
  | nil => simp [convDelete]
  | cons p rest ih =>
    rcases p with ⟨k', w⟩
    by_cases h : k' = k <;> simp [convDelete, h, ih]

lemma convDelete_absent (m : Conversations) (k : String)
    (h : convGet m k = none) : convDelete m k = m := by
  induction m with
  | nil => simp [convDelete]
  | cons p rest ih =>
    rcases p with ⟨k', w⟩
    by_cases hk : k' = k
    · subst hk
      simp [convGet] at h
    · simp [convGet, hk] at h
      simp [convDelete, hk, ih h]

/-! ## `getAIResponse` characterization -/

lemma getAIStart_eq (conv : Conversations) (sid u : String) :
    getAIStart conv sid u =
      (convSet conv sid
        (seedHist conv sid ++ (if u = "" then [] else [⟨Role.user, u⟩])),
       seedHist conv sid ++ (if u = "" then [] else [⟨Role.user, u⟩])) := by
  cases hc : convGet conv sid with
  | none =>
    simp [getAIStart, convHas, hc, seedHist, convGet_set_self, convSet_set]
    split <;> simp
  | some h =>
    simp [getAIStart, convHas, hc, seedHist]
    split <;> simp

lemma getAIResponse_failure_eq (conv : Conversations) (sid u : String) :
    getAIResponse conv sid u ProviderResult.failure =
      ⟨convSet conv sid (seedHist conv sid ++ (if u = "" then [] else [⟨Role.user, u⟩])),
       seedHist conv sid ++ (if u = "" then [] else [⟨Role.user, u⟩]),
       FALLBACK⟩ := by
  simp [getAIResponse, getAIStart_eq, getAIFinish]

lemma getAIResponse_ok_eq (conv : Conversations) (sid u c : String) :
    getAIResponse conv sid u (ProviderResult.ok c) =
      ⟨convSet conv sid
         ((seedHist conv sid ++ (if u = "" then [] else [⟨Role.user, u⟩])) ++
           [⟨Role.assistant, c⟩]),
       seedHist conv sid ++ (if u = "" then [] else [⟨Role.user, u⟩]),
       c⟩ := by
  simp [getAIResponse, getAIStart_eq, getAIFinish, convSet_set]

/-! ## Alternation lemmas -/

lemma altState_append (r : Role) (xs ys : List Role) :
    altState r (xs ++ ys) = (altState r xs).bind (fun q => altState q ys) := by
  induction xs generalizing r with
  | nil => simp [altState]
  | cons x xs ih =>
    by_cases h : x = r <;> simp [altState, h, ih]

lemma systemFirst_append (h : History) (l : List Message)
    (hh : systemFirst h = true) (hl : ∀ m ∈ l, m.role ≠ Role.system) :
    systemFirst (h ++ l) = true := by
  match h with
  | [] => simp [systemFirst] at hh
  | m :: t =>
    simp [systemFirst, List.all_append] at hh ⊢
    exact ⟨hh.1, hh.2, hl⟩

lemma readyHistory_append (h : History) (u a : String)
    (hh : readyHistory h = true) :
    readyHistory (h ++ [⟨Role.user, u⟩, ⟨Role.assistant, a⟩]) = true := by
  match h with
  | [] => simp [readyHistory] at hh
  | m :: t =>
    simp [readyHistory] at hh ⊢
    refine ⟨hh.1, ?_⟩
    rw [altState_append, hh.2]
    simp [altState, flipRole]

lemma readyHistory_wf (h : History) (hh : readyHistory h = true) :
    wfHistory h = true := by
  match h with
  | [] => simp [readyHistory] at hh
  | m :: t =>
    simp [readyHistory] at hh
    simp [wfHistory, hh.1, hh.2]

lemma readyHistory_systemMsg : readyHistory [⟨Role.system, SYSTEM_PROMPT⟩] = true := by
  simp [readyHistory, altState]

lemma systemFirst_systemMsg : systemFirst [⟨Role.system, SYSTEM_PROMPT⟩] = true := by
  simp [systemFirst]

lemma readyHistory_seed (conv : Conversations) (sid : String)
    (H : ∀ h, convGet conv sid = some h → readyHistory h = true) :
    readyHistory (seedHist conv sid) = true := by
  cases hc : convGet conv sid with
  | none => simpa [seedHist, hc] using readyHistory_systemMsg
  | some h => simpa [seedHist, hc] using H h hc

lemma systemFirst_seed (conv : Conversations) (sid : String)
    (H : ∀ h, convGet conv sid = some h → systemFirst h = true) :
    systemFirst (seedHist conv sid) = true := by
  cases hc : convGet conv sid with
  | none => simpa [seedHist, hc] using systemFirst_systemMsg
  | some h => simpa [seedHist, hc] using H h hc

/-! ## Speech-handler branch characterizations -/

lemma isBookingConfirmed_FALLBACK : isBookingConfirmed FALLBACK = false := by decide

lemma transcript_ne_empty (t : String) (h : jsTrim t ≠ "") : t ≠ "" := by
  intro he
  subst he
  exact h rfl

lemma handleSpeech_blank (conv : Conversations) (sid : String) (evt : SpeechEvent)
    (p : ProviderResult) (h1 : jsTrim (extractTranscript evt) = "") :
    handleSpeech conv sid evt p = (conv, [Action.reply]) := by
  simp [handleSpeech, h1]

lemma handleSpeech_end (conv : Conversations) (sid : String) (evt : SpeechEvent)
    (p : ProviderResult) (h1 : jsTrim (extractTranscript evt) ≠ "")
    (h2 : isEndPhrase (extractTranscript evt) = true) :
    handleSpeech conv sid evt p =
      (convDelete conv sid,
       [Action.reply, Action.sayStream CLOSING, Action.hangupAfter 3000]) := by
  simp [handleSpeech, h1, h2]

lemma handleSpeech_failure_eq (conv : Conversations) (sid : String) (evt : SpeechEvent)
    (h1 : jsTrim (extractTranscript evt) ≠ "")
    (h2 : isEndPhrase (extractTranscript evt) = false) :
    handleSpeech conv sid evt ProviderResult.failure =
      (convSet conv sid (seedHist conv sid ++ [⟨Role.user, extractTranscript evt⟩]),
       [Action.reply,
        Action.modelCall (seedHist conv sid ++ [⟨Role.user, extractTranscript evt⟩]),
        Action.sayStream FALLBACK]) := by
  have ht := transcript_ne_empty _ h1
  simp [handleSpeech, h1, h2, getAIResponse_failure_eq, ht, isBookingConfirmed_FALLBACK]

lemma handleSpeech_ok_eq (conv : Conversations) (sid : String) (evt : SpeechEvent)
    (c : String) (h1 : jsTrim (extractTranscript evt) ≠ "")
    (h2 : isEndPhrase (extractTranscript evt) = false)
    (h3 : isBookingConfirmed c = false) :
    handleSpeech conv sid evt (ProviderResult.ok c) =
      (convSet conv sid
         (seedHist conv sid ++
           [⟨Role.user, extractTranscript evt⟩, ⟨Role.assistant, c⟩]),
       [Action.reply,
        Action.modelCall (seedHist conv sid ++ [⟨Role.user, extractTranscript evt⟩]),
        Action.sayStream c]) := by
  have ht := transcript_ne_empty _ h1
  simp [handleSpeech, h1, h2, getAIResponse_ok_eq, ht, h3]

lemma handleSpeech_ok_confirm_eq (conv : Conversations) (sid : String) (evt : SpeechEvent)
    (c : String) (h1 : jsTrim (extractTranscript evt) ≠ "")
    (h2 : isEndPhrase (extractTranscript evt) = false)
    (h3 : isBookingConfirmed c = true) :
    handleSpeech conv sid evt (ProviderResult.ok c) =
      (convDelete
         (convSet conv sid
           (seedHist conv sid ++
             [⟨Role.user, extractTranscript evt⟩, ⟨Role.assistant, c⟩])) sid,
       [Action.reply,
        Action.modelCall (seedHist conv sid ++ [⟨Role.user, extractTranscript evt⟩]),
        Action.sayStream (c ++ " До свидания!"), Action.hangupAfter 5000]) := by
  have ht := transcript_ne_empty _ h1
  simp [handleSpeech, h1, h2, getAIResponse_ok_eq, ht, h3]

/-! ## History invariants over speech-turn traces -/

lemma handleSpeech_systemFirst (conv : Conversations) (sid : String) (evt : SpeechEvent)
    (p : ProviderResult)
    (H : ∀ h, convGet conv sid = some h → systemFirst h = true) :
    ∀ h, convGet (handleSpeech conv sid evt p).1 sid = some h → systemFirst h = true := by
  intro h hh
  by_cases h1 : jsTrim (extractTranscript evt) = ""
  · rw [handleSpeech_blank conv sid evt p h1] at hh
    exact H h hh
  · by_cases h2 : isEndPhrase (extractTranscript evt) = true
    · rw [handleSpeech_end conv sid evt p h1 h2] at hh
      simp [convGet_delete_self] at hh
    · rw [Bool.not_eq_true] at h2
      cases p with
      | failure =>
        rw [handleSpeech_failure_eq conv sid evt h1 h2] at hh
        rw [convGet_set_self] at hh
        cases hh
        refine systemFirst_append _ _ (systemFirst_seed conv sid H) ?_
        simp
      | ok c =>
        by_cases h3 : isBookingConfirmed c = true
        · rw [handleSpeech_ok_confirm_eq conv sid evt c h1 h2 h3] at hh
          simp [convGet_delete_self] at hh
        · rw [Bool.not_eq_true] at h3
          rw [handleSpeech_ok_eq conv sid evt c h1 h2 h3] at hh
          rw [convGet_set_self] at hh
          cases hh
          refine systemFirst_append _ _ (systemFirst_seed conv sid H) ?_
          simp

lemma handleSpeech_ready (conv : Conversations) (sid : String) (evt : SpeechEvent)
    (c : String)
    (H : ∀ h, convGet conv sid = some h → readyHistory h = true) :
    ∀ h, convGet (handleSpeech conv sid evt (ProviderResult.ok c)).1 sid = some h →
      readyHistory h = true := by
  intro h hh
  by_cases h1 : jsTrim (extractTranscript evt) = ""
  · rw [handleSpeech_blank conv sid evt _ h1] at hh
    exact H h hh
  · by_cases h2 : isEndPhrase (extractTranscript evt) = true
    · rw [handleSpeech_end conv sid evt _ h1 h2] at hh
      simp [convGet_delete_self] at hh
    · rw [Bool.not_eq_true] at h2
      by_cases h3 : isBookingConfirmed c = true
      · rw [handleSpeech_ok_confirm_eq conv sid evt c h1 h2 h3] at hh
        simp [convGet_delete_self] at hh
      · rw [Bool.not_eq_true] at h3
        rw [handleSpeech_ok_eq conv sid evt c h1 h2 h3] at hh
        rw [convGet_set_self] at hh
        cases hh
        exact readyHistory_append _ _ _ (readyHistory_seed conv sid H)

lemma runSpeech_systemFirst (sid : String) (evs : List (SpeechEvent × ProviderResult)) :
    ∀ conv, (∀ h, convGet conv sid = some h → systemFirst h = true) →
      ∀ h, convGet (runSpeech conv sid evs) sid = some h → systemFirst h = true := by
  induction evs with
  | nil => intro conv H; exact H
  | cons e rest ih =>
    intro conv H
    rcases e with ⟨evt, p⟩
    exact ih _ (handleSpeech_systemFirst conv sid evt p H)

lemma runSpeech_ready (sid : String) (evs : List (SpeechEvent × ProviderResult))
    (hok : ∀ e ∈ evs, e.2 ≠ ProviderResult.failure) :
    ∀ conv, (∀ h, convGet conv sid = some h → readyHistory h = true) →
      ∀ h, convGet (runSpeech conv sid evs) sid = some h → readyHistory h = true := by
  induction evs with
  | nil => intro conv H; exact H
  | cons e rest ih =>
    intro conv H
    rcases e with ⟨evt, p⟩
    cases p with
    | failure => exact absurd rfl (hok (evt, ProviderResult.failure) (by simp))
    | ok c =>
      exact ih (fun e he => hok e (List.mem_cons_of_mem _ he)) _
        (handleSpeech_ready conv sid evt c H)

/-! ## Whitespace-only inputs never match -/

lemma matchesAt_all {P : Char → Prop} (sub s : List Char)
    (hm : matchesAt sub s = true) (hs : ∀ c ∈ s, P c) : ∀ c ∈ sub, P c := by
  induction sub generalizing s with
  | nil => simp
  | cons a as ih =>
    match s with
    | [] => simp [matchesAt] at hm
    | b :: bs =>
      simp [matchesAt] at hm
      intro c hc
      rcases List.mem_cons.mp hc with hc | hc
      · subst hc
        rw [hm.1]
        exact hs b (List.mem_cons_self b bs)
      · exact ih bs hm.2 (fun x hx => hs x (List.mem_cons_of_mem b hx)) c hc

lemma hasSubstr_all {P : Char → Prop} (s sub : List Char)
    (hm : hasSubstr s sub = true) (hs : ∀ c ∈ s, P c) : ∀ c ∈ sub, P c := by
  induction s with
  | nil =>
    match sub with
    | [] => simp
    | a :: as => simp [hasSubstr, matchesAt] at hm
  | cons b bs ih =>
    simp [hasSubstr] at hm
    rcases hm with hm | hm
    · exact matchesAt_all sub (b :: bs) hm hs
    · exact ih hm (fun x hx => hs x (List.mem_cons_of_mem b hx))

lemma includes_blankFalse (s sub : String)
    (hs : ∀ c ∈ s.data, c.isWhitespace = true)
    (c0 : Char) (hc0 : c0 ∈ sub.data) (hw : c0.isWhitespace = false) :
    includes s sub = false := by
  by_contra hne
  rw [Bool.not_eq_false] at hne
  have := hasSubstr_all s.data sub.data hne hs c0 hc0
  rw [hw] at this
  exact Bool.false_ne_true this

lemma charLower_whitespace (c : Char) (h : c.isWhitespace = true) :
    charLower c = c := by
  simp [Char.isWhitespace] at h
  rcases h with ((h | h) | h) | h <;> subst h <;> decide

lemma jsToLower_blank (s : String) (hs : ∀ c ∈ s.data, c.isWhitespace = true) :
    ∀ c ∈ (jsToLower s).data, c.isWhitespace = true := by
  intro c hc
  simp [jsToLower] at hc
  obtain ⟨a, ha, rfl⟩ := hc
  rw [charLower_whitespace a (hs a ha)]
  exact hs a ha

lemma isEndPhrase_blank (s : String) (hs : ∀ c ∈ s.data, c.isWhitespace = true) :
    isEndPhrase s = false := by
  by_contra hne
  rw [Bool.not_eq_false] at hne
  simp only [isEndPhrase, List.any_eq_true] at hne
  obtain ⟨phrase, hp, hinc⟩ := hne
  have hl := jsToLower_blank s hs
  simp only [END_PHRASES, List.mem_cons, List.not_mem_nil, or_false] at hp
  rcases hp with hp | hp | hp | hp | hp | hp <;> subst hp
  · rw [includes_blankFalse _ "до свидания" hl 'д' (by decide) (by decide)] at hinc
    exact Bool.false_ne_true hinc
  · rw [includes_blankFalse _ "пока" hl 'п' (by decide) (by decide)] at hinc
    exact Bool.false_ne_true hinc
  · rw [includes_blankFalse _ "всего доброго" hl 'в' (by decide) (by decide)] at hinc
    exact Bool.false_ne_true hinc
  · rw [includes_blankFalse _ "нет спасибо" hl 'н' (by decide) (by decide)] at hinc
    exact Bool.false_ne_true hinc
  · rw [includes_blankFalse _ "не интересует" hl 'н' (by decide) (by decide)] at hinc
    exact Bool.false_ne_true hinc
  · rw [includes_blankFalse _ "не надо" hl 'н' (by decide) (by decide)] at hinc
    exact Bool.false_ne_true hinc

lemma isBookingConfirmed_blank (s : String)
    (hs : ∀ c ∈ s.data, c.isWhitespace = true) :
    isBookingConfirmed s = false := by
  have hl := jsToLower_blank s hs
  simp only [isBookingConfirmed]
  rw [includes_blankFalse _ _ hl 'з' (by decide) (by decide),
    includes_blankFalse _ _ hl 'ж' (by decide) (by decide),
    includes_blankFalse _ _ hl 'б' (by decide) (by decide)]
  rfl

/-! ## Claim theorems -/

/-- **C1 (counterexample).** The claim states that a failed provider call
leaves the conversation history unmodified.  It does not: `getAIResponse`
pushes the user turn (and lazily seeds the entry) before the `try`, so after
a failed call on a history holding only the system turn the stored entry has
grown by the user turn. -/
theorem c1_failure_modifies_history_cex :
    (getAIResponse [("c1", [⟨Role.system, SYSTEM_PROMPT⟩])] "c1" "привет"
        ProviderResult.failure).conv
      ≠ [("c1", [⟨Role.system, SYSTEM_PROMPT⟩])] := by
  decide

/-- **C1 (amended).** On provider failure, for every call identifier and
non-empty utterance, `getAIResponse` does not throw (it is a total
function), returns the fixed localized technical-difficulty message, and
appends no assistant turn; however the failed attempt does seed the history
with the system turn (if the entry was absent) and append the user turn —
the history afterwards is exactly the seeded history plus this user turn —
and no other call's entry is touched. -/
theorem c1_failure_returns_fallback (conv : Conversations) (sid u : String)
    (hu : u ≠ "") :
    (getAIResponse conv sid u ProviderResult.failure).response = FALLBACK ∧
    convGet (getAIResponse conv sid u ProviderResult.failure).conv sid
      = some (seedHist conv sid ++ [⟨Role.user, u⟩]) ∧
    (∀ q, q ≠ sid →
      convGet (getAIResponse conv sid u ProviderResult.failure).conv q
        = convGet conv q) := by
  refine ⟨by simp [getAIResponse_failure_eq], ?_, ?_⟩
  · rw [getAIResponse_failure_eq]
    simp [hu, convGet_set_self]
  · intro q hq
    rw [getAIResponse_failure_eq]
    exact convGet_set_other conv sid q _ hq

/-- Witness for `c1_failure_returns_fallback` at a concrete input. -/
theorem c1_failure_returns_fallback_witness :
    (getAIResponse [] "c1" "привет" ProviderResult.failure).response = FALLBACK :=
  (c1_failure_returns_fallback [] "c1" "привет" (by decide)).1

/-- **C2 (counterexample).** The claim states that user and assistant turns
strictly alternate after the leading system turn for every interleaving of
successful and failed invocations.  A failed invocation followed by a
successful one produces two consecutive user turns: the final history is
`[system, user, user, assistant]`, which violates the alternation shape. -/
theorem c2_alternation_cex :
    convGet (runSpeech [] "c1"
        [(evtOf "привет", ProviderResult.failure),
         (evtOf "хочу столик на двоих", ProviderResult.ok "Хорошо, на какое время?")])
        "c1"
      = some [⟨Role.system, SYSTEM_PROMPT⟩, ⟨Role.user, "привет"⟩,
              ⟨Role.user, "хочу столик на двоих"⟩,
              ⟨Role.assistant, "Хорошо, на какое время?"⟩] ∧
    wfHistory [⟨Role.system, SYSTEM_PROMPT⟩, ⟨Role.user, "привет"⟩,
               ⟨Role.user, "хочу столик на двоих"⟩,
               ⟨Role.assistant, "Хорошо, на какое время?"⟩] = false := by
  exact ⟨by decide, by decide⟩

/-- **C2 (amended).** After any sequence of speech-handler turns for one
call: (a) the stored history always has exactly one system turn, placed
first (`systemFirst`), for every interleaving of successes and failures; and
(b) if every Response Generator invocation in the sequence succeeded, the
turns after the system turn strictly alternate user/assistant in append
order (`wfHistory`). -/
theorem c2_history_invariant (sid : String)
    (evs : List (SpeechEvent × ProviderResult)) :
    (∀ h, convGet (runSpeech [] sid evs) sid = some h → systemFirst h = true) ∧
    ((∀ e ∈ evs, e.2 ≠ ProviderResult.failure) →
      ∀ h, convGet (runSpeech [] sid evs) sid = some h → wfHistory h = true) := by
  constructor
  · exact runSpeech_systemFirst sid evs []
      (by intro h hh; simp [convGet] at hh)
  · intro hok h hh
    exact readyHistory_wf h
      (runSpeech_ready sid evs hok [] (by intro h hh; simp [convGet] at hh) h hh)

/-- Witness for `c2_history_invariant` on a concrete one-turn trace. -/
theorem c2_history_invariant_witness :
    wfHistory [⟨Role.system, SYSTEM_PROMPT⟩, ⟨Role.user, "хочу столик на двоих"⟩,
               ⟨Role.assistant, "Какой день вам удобен?"⟩] = true :=
  (c2_history_invariant "c1"
      [(evtOf "хочу столик на двоих", ProviderResult.ok "Какой день вам удобен?")]).2
    (by decide) _ (by decide)

/-- **C3 (code evaluation).** The speech handler consults no pending-call
state before starting a model call: `speechPhase1` (everything the handler
runs before suspending on the completion `await`) starts a model call for a
second recognition event delivered while the first event's model call is
still pending.  The second request even carries two consecutive user turns.
This contradicts the claim that such an event is ignored or queued. -/
theorem c3_no_processing_guard :
    (speechPhase1 [] "call-1" (evtOf "хочу столик на двоих")).2
      = Phase1Outcome.modelCallStarted
          [⟨Role.system, SYSTEM_PROMPT⟩, ⟨Role.user, "хочу столик на двоих"⟩] ∧
    (speechPhase1 (speechPhase1 [] "call-1" (evtOf "хочу столик на двоих")).1
        "call-1" (evtOf "на двоих, пожалуйста")).2
      = Phase1Outcome.modelCallStarted
          [⟨Role.system, SYSTEM_PROMPT⟩, ⟨Role.user, "хочу столик на двоих"⟩,
           ⟨Role.user, "на двоих, пожалуйста"⟩] := by
  exact ⟨by decide, by decide⟩

/-- **C4.** A recognition event whose (non-blank) transcript matches
`isEndPhrase` deletes the call's history, delivers the closing utterance,
issues the (delayed) hangup, and makes no model call — for every store,
call identifier, and provider behaviour. -/
theorem c4_end_phrase (conv : Conversations) (sid : String) (evt : SpeechEvent)
    (p : ProviderResult) (h1 : jsTrim (extractTranscript evt) ≠ "")
    (h2 : isEndPhrase (extractTranscript evt) = true) :
    handleSpeech conv sid evt p =
      (convDelete conv sid,
       [Action.reply, Action.sayStream CLOSING, Action.hangupAfter 3000]) ∧
    convGet (handleSpeech conv sid evt p).1 sid = none ∧
    (∀ req, Action.modelCall req ∉ (handleSpeech conv sid evt p).2) := by
  have he := handleSpeech_end conv sid evt p h1 h2
  refine ⟨he, ?_, ?_⟩
  · rw [he]
    exact convGet_delete_self conv sid
  · intro req
    rw [he]
    simp

/-- Witness for `c4_end_phrase`: the transcript «до свидания». -/
theorem c4_end_phrase_witness :
    convGet (handleSpeech [("c1", [⟨Role.system, SYSTEM_PROMPT⟩])] "c1"
        (evtOf "до свидания") ProviderResult.failure).1 "c1" = none :=
  (c4_end_phrase [("c1", [⟨Role.system, SYSTEM_PROMPT⟩])] "c1"
      (evtOf "до свидания") ProviderResult.failure (by decide) (by decide)).2.1

/-- **C5.** On a call's first recognition event (no stored history) with a
non-blank, non-end-phrase transcript, the model is invoked with exactly the
two-message history `[system, user]`; when the reply is non-confirming it is
delivered, no hangup is issued (the session keeps listening), and the stored
history then has exactly 3 turns: system, user, assistant. -/
theorem c5_first_turn (conv : Conversations) (sid r : String) (evt : SpeechEvent)
    (h0 : convGet conv sid = none)
    (h1 : jsTrim (extractTranscript evt) ≠ "")
    (h2 : isEndPhrase (extractTranscript evt) = false)
    (h3 : isBookingConfirmed r = false) :
    (handleSpeech conv sid evt (ProviderResult.ok r)).2
      = [Action.reply,
         Action.modelCall
           [⟨Role.system, SYSTEM_PROMPT⟩, ⟨Role.user, extractTranscript evt⟩],
         Action.sayStream r] ∧
    convGet (handleSpeech conv sid evt (ProviderResult.ok r)).1 sid
      = some [⟨Role.system, SYSTEM_PROMPT⟩, ⟨Role.user, extractTranscript evt⟩,
              ⟨Role.assistant, r⟩] ∧
    ((convGet (handleSpeech conv sid evt (ProviderResult.ok r)).1 sid).getD
        []).length = 3 ∧
    (∀ ms, Action.hangupAfter ms ∉ (handleSpeech conv sid evt (ProviderResult.ok r)).2) := by
  have he := handleSpeech_ok_eq conv sid evt r h1 h2 h3
  have hs : seedHist conv sid = [⟨Role.system, SYSTEM_PROMPT⟩] := by
    simp [seedHist, h0]
  refine ⟨?_, ?_, ?_, ?_⟩ <;> simp [he, hs, convGet_set_self]

/-- Witness for `c5_first_turn` at scenario B's transcript. -/
theorem c5_first_turn_witness :
    convGet (handleSpeech [] "c1" (evtOf "хочу столик на двоих")
        (ProviderResult.ok "На какое число вы хотите столик?")).1 "c1"
      = some [⟨Role.system, SYSTEM_PROMPT⟩, ⟨Role.user, "хочу столик на двоих"⟩,
              ⟨Role.assistant, "На какое число вы хотите столик?"⟩] :=
  (c5_first_turn [] "c1" "На какое число вы хотите столик?"
      (evtOf "хочу столик на двоих") (by decide) (by decide) (by decide)
      (by decide)).2.1

/-- **C6.** `isEndPhrase` and `isBookingConfirmed` are total Lean functions
(hence side-effect-free); each equals a case-insensitive substring match of
its fixed phrase set against the lowercased input; both reject every empty
or whitespace-only input; and the two concrete examples from the spec hold. -/
theorem c6_dialog_policy :
    isEndPhrase "Ну что, до свидания!" = true ∧
    isEndPhrase "хочу забронировать" = false ∧
    (∀ s : String,
      isEndPhrase s = END_PHRASES.any (fun phrase => includes (jsToLower s) phrase)) ∧
    (∀ s : String,
      isBookingConfirmed s =
        (includes (jsToLower s) "забронирован" || includes (jsToLower s) "ждём вас" ||
          includes (jsToLower s) "бронь подтверждена")) ∧
    (∀ s : String, (∀ c ∈ s.data, c.isWhitespace = true) →
      isEndPhrase s = false ∧ isBookingConfirmed s = false) := by
  refine ⟨by decide, by decide, fun s => rfl, fun s => rfl, fun s hs => ?_⟩
  exact ⟨isEndPhrase_blank s hs, isBookingConfirmed_blank s hs⟩

/-- Witness for `c6_dialog_policy` on a concrete whitespace-only input. -/
theorem c6_dialog_policy_witness :
    isEndPhrase " \t " = false ∧ isBookingConfirmed " \t " = false :=
  c6_dialog_policy.2.2.2.2 " \t " (by decide)

/-- **C7.** On a transport-reported terminal call status (`completed` or
`failed`) and on session close, the call's history entry is deleted from the
store — for every store and call identifier, hence in every state and
regardless of in-flight work. -/
theorem c7_termination_deletes (conv : Conversations) (sid status : String)
    (h : status = "completed" ∨ status = "failed") :
    convGet (handleCallStatus conv sid status) sid = none ∧
    convGet (handleClose conv sid) sid = none := by
  constructor
  · unfold handleCallStatus
    rw [if_pos h]
    exact convGet_delete_self conv sid
  · exact convGet_delete_self conv sid

/-- Witness for `c7_termination_deletes` at status `completed`. -/
theorem c7_termination_deletes_witness :
    convGet (handleCallStatus [("c1", [⟨Role.system, SYSTEM_PROMPT⟩])] "c1"
        "completed") "c1" = none :=
  (c7_termination_deletes [("c1", [⟨Role.system, SYSTEM_PROMPT⟩])] "c1"
      "completed" (Or.inl rfl)).1

/-- **C8.** A recognition event with missing optional fields, or with an
empty or whitespace-only transcript, is handled without throwing (the
handler is total) and degrades to the empty-transcript case: the store is
unchanged and the only command issued is the webhook acknowledgement — no
history mutation, no deletion, no model call, no speech, no hangup.  Each
truncation of the optional chain extracts the empty transcript. -/
theorem c8_missing_fields (conv : Conversations) (sid : String)
    (evt : SpeechEvent) (p : ProviderResult)
    (h : jsTrim (extractTranscript evt) = "") :
    handleSpeech conv sid evt p = (conv, [Action.reply]) ∧
    extractTranscript ⟨none⟩ = "" ∧
    extractTranscript ⟨some ⟨none⟩⟩ = "" ∧
    extractTranscript ⟨some ⟨some []⟩⟩ = "" ∧
    extractTranscript ⟨some ⟨some [⟨none⟩]⟩⟩ = "" ∧
    extractTranscript ⟨some ⟨some [⟨some ""⟩]⟩⟩ = "" :=
  ⟨handleSpeech_blank conv sid evt p h, rfl, rfl, rfl, rfl, rfl⟩

/-- Witness for `c8_missing_fields` on a whitespace-only transcript. -/
theorem c8_missing_fields_witness :
    handleSpeech [] "c1" (evtOf "  ") ProviderResult.failure
      = ([], [Action.reply]) :=
  (c8_missing_fields [] "c1" (evtOf "  ") ProviderResult.failure (by decide)).1

/-- **C9.** Deleting a call's history is idempotent: a second delete is a
no-op, deleting an absent identifier returns the store unchanged (no error —
the function is total), and after a delete the store maps that identifier to
nothing while every other identifier is unaffected. -/
theorem c9_delete_idempotent (m : Conversations) (k : String) :
    convDelete (convDelete m k) k = convDelete m k ∧
    (convGet m k = none → convDelete m k = m) ∧
    convGet (convDelete m k) k = none ∧
    (∀ q, q ≠ k → convGet (convDelete m k) q = convGet m q) :=
  ⟨convDelete_delete m k, convDelete_absent m k, convGet_delete_self m k,
   fun q hq => convGet_delete_other m k q hq⟩

/-- Witness for `c9_delete_idempotent`: deleting an absent identifier. -/
theorem c9_delete_idempotent_witness :
    convDelete ([("c2", [⟨Role.system, SYSTEM_PROMPT⟩])] : Conversations) "c1"
      = [("c2", [⟨Role.system, SYSTEM_PROMPT⟩])] :=
  (c9_delete_idempotent [("c2", [⟨Role.system, SYSTEM_PROMPT⟩])] "c1").2.1
    (by decide)

/-- **C10.** The fixed fallback message does not satisfy
`isBookingConfirmed`, so a provider failure never takes the booking-confirmed
ending path: the handler keeps the history entry (seeded history plus the
user turn), speaks the fallback, and issues no hangup — the session keeps
listening. -/
theorem c10_failure_keeps_listening (conv : Conversations) (sid : String)
    (evt : SpeechEvent) (h1 : jsTrim (extractTranscript evt) ≠ "")
    (h2 : isEndPhrase (extractTranscript evt) = false) :
    isBookingConfirmed FALLBACK = false ∧
    (handleSpeech conv sid evt ProviderResult.failure).2
      = [Action.reply,
         Action.modelCall (seedHist conv sid ++ [⟨Role.user, extractTranscript evt⟩]),
         Action.sayStream FALLBACK] ∧
    convGet (handleSpeech conv sid evt ProviderResult.failure).1 sid
      = some (seedHist conv sid ++ [⟨Role.user, extractTranscript evt⟩]) ∧
    (∀ ms, Action.hangupAfter ms ∉ (handleSpeech conv sid evt ProviderResult.failure).2) := by
  have he := handleSpeech_failure_eq conv sid evt h1 h2
  refine ⟨isBookingConfirmed_FALLBACK, ?_, ?_, ?_⟩ <;>
    simp [he, convGet_set_self]

/-- Witness for `c10_failure_keeps_listening` at a concrete failed turn. -/
theorem c10_failure_keeps_listening_witness :
    convGet (handleSpeech [] "c1" (evtOf "хочу столик") ProviderResult.failure).1 "c1"
      = some (seedHist [] "c1" ++ [⟨Role.user, extractTranscript (evtOf "хочу столик")⟩]) :=
  (c10_failure_keeps_listening [] "c1" (evtOf "хочу столик") (by decide)
      (by decide)).2.2.1

end RestaurantBot
